import Mathlib

/-!
# EVChargeNet — charging-session lifecycle and slot accounting

A shallow embedding of the state-bearing operations of
`script.js` (EVchargeNet): the charging transaction pair
`startCharging` / `stopCharging`, the queue operation `joinQueue`, the
favorites toggle `toggleFavorite`, the admin station create/edit form
handler, and user registration.

Modelling conventions:
* The Firestore collections (`stations`, `activeSessions`, `bookings`,
  `users`) together with the in-memory mirrors the script keeps in sync
  through snapshot listeners are modelled as one `AppState` record of
  lists of documents.
* JavaScript numbers are modelled as `ℚ` (prices, energy, cost) or `Int`
  (timestamps in milliseconds, slot counts, durations in seconds).
  `Math.floor` on a quotient of integers is `Int.fdiv`.
* Firestore transactions are atomic: a failed operation returns
  `Except.error` and the caller keeps the old state, matching the
  all-or-nothing contract of `db.runTransaction`.
* Document identifiers generated by `doc()` / `add()` are passed in as
  explicit arguments; the store guarantees they are fresh and that ids
  inside a collection are pairwise distinct, which appears as an explicit
  hypothesis where a proof counts documents.
* The JS truthiness test `station.currentPrice || station.pricePerKwh`
  is modelled on `Option ℚ`: an absent field is `none`, and a stored `0`
  is falsy, so both fall back to `pricePerKwh`.
-/

/-- `slots: {total, available}` field of a station document. -/
structure Slots where
  total : Int
  available : Int
deriving Repr, DecidableEq

/-- A document of the `stations` collection (fields written by the admin
form, plus `queue` and the optional peak override `currentPrice`). -/
structure Station where
  id : String
  name : String
  city : String
  lat : ℚ
  lng : ℚ
  mobile : String
  slots : Slots
  pricePerKwh : ℚ
  currentPrice : Option ℚ
  status : String
  images : List String
  amenities : List String
  chargerTypes : List String
  queue : List String
deriving Repr, DecidableEq

/-- A document of the `activeSessions` collection. -/
structure Session where
  id : String
  userId : String
  stationId : String
  startTime : Int
deriving Repr, DecidableEq

/-- A document of the `bookings` collection. -/
structure Booking where
  id : String
  userId : String
  stationId : String
  createdAt : Int
  duration : Int
  cost : ℚ
  kwhConsumed : ℚ
deriving Repr, DecidableEq

/-- The `profile` map of a user document. -/
structure Profile where
  favorites : List String
  vehicle : String
  theme : String
  loyaltyPoints : Int
  hasCompletedTour : Bool
deriving Repr, DecidableEq

/-- A document of the `users` collection. -/
structure UserDoc where
  id : String
  email : String
  role : String
  profile : Profile
deriving Repr, DecidableEq

/-- The store state: one list of documents per collection. -/
structure AppState where
  stations : List Station
  activeSessions : List Session
  bookings : List Booking
  users : List UserDoc
deriving Repr, DecidableEq

/-- `db.collection('stations').doc(id)` resolved against the state. -/
def findStation (s : AppState) (stationId : String) : Option Station :=
  s.stations.find? (fun st => st.id == stationId)

/-- `db.collection('activeSessions').doc(id)` resolved against the state. -/
def findSession (s : AppState) (sessionId : String) : Option Session :=
  s.activeSessions.find? (fun ss => ss.id == sessionId)

/-- `db.collection('users').doc(id)` resolved against the state. -/
def findUser (s : AppState) (uid : String) : Option UserDoc :=
  s.users.find? (fun u => u.id == uid)

/-- Update the station documents whose id matches `stationId`. -/
def updStations (l : List Station) (stationId : String) (f : Station → Station) :
    List Station :=
  l.map (fun st => if st.id == stationId then f st else st)

/-- Update the user documents whose id matches `uid`. -/
def updUsers (l : List UserDoc) (uid : String) (f : UserDoc → UserDoc) :
    List UserDoc :=
  l.map (fun u => if u.id == uid then f u else u)

/-- `{"slots.available": available - 1}` — the field update written by
`startCharging`. -/
def decSlot (t : Station) : Station :=
  { t with slots := { t.slots with available := t.slots.available - 1 } }

/-- `{"slots.available": increment(1)}` — the field update written by
`stopCharging`. -/
def incSlot (t : Station) : Station :=
  { t with slots := { t.slots with available := t.slots.available + 1 } }

/-- `{"profile.loyaltyPoints": increment(10)}` — the field update
written by `stopCharging`. -/
def addPoints (u : UserDoc) : UserDoc :=
  { u with profile :=
    { u.profile with loyaltyPoints := u.profile.loyaltyPoints + 10 } }

/-- `startCharging(stationId)` (script.js 882–909): a transaction that
reads the station, throws `"Station does not exist!"` when missing and
`"No available slots!"` when `slots.available <= 0`, and otherwise
decrements `slots.available` by one and creates one active-session
document `{userId, stationId, startTime}`.  `uid` is `loggedInUser.uid`
and `sessionId` the fresh id from `doc()`. -/
def startCharging (s : AppState) (uid stationId sessionId : String) (now : Int) :
    Except String AppState :=
  match findStation s stationId with
  | none => .error "Station does not exist!"
  | some st =>
    if st.slots.available ≤ 0 then .error "No available slots!"
    else .ok
      { s with
        stations := updStations s.stations stationId decSlot
        activeSessions := s.activeSessions ++ [⟨sessionId, uid, stationId, now⟩] }

/-- The price used by `stopCharging` (script.js 950):
`stationData.currentPrice || stationData.pricePerKwh`.  A missing field
and a stored `0` are both falsy in JavaScript, so both select
`pricePerKwh`; any other stored value is selected as is. -/
def effectivePrice (st : Station) : ℚ :=
  match st.currentPrice with
  | some p => if p = 0 then st.pricePerKwh else p
  | none => st.pricePerKwh

/-- The specification's effective price ("the peak override price if set
and higher than base price, else base price"), written from the spec's
words for comparison with `effectivePrice` above. -/
def effectivePriceSpec (st : Station) : ℚ :=
  match st.currentPrice with
  | some p => if st.pricePerKwh < p then p else st.pricePerKwh
  | none => st.pricePerKwh

/-- `stopCharging(sessionId)` (script.js 935–977): reads the session
document (throws `"Session not found!"` when missing), looks the owning
station up in the local `stations` mirror (an absent station makes
`stationData.currentPrice` throw a `TypeError` before any write),
computes `duration = Math.floor((now - startTime)/1000)`,
`kwhConsumed = duration/3600 * 25` and
`cost = kwhConsumed * (currentPrice || pricePerKwh)`, then atomically
deletes the session, increments the station's `slots.available` by 1,
increments `profile.loyaltyPoints` of the *calling* user
(`loggedInUser.uid`) by 10, and appends one booking document.  A
`transaction.update` against a missing user document aborts the whole
transaction. -/
def stopCharging (s : AppState) (uid sessionId bookingId : String) (now : Int) :
    Except String AppState :=
  match findSession s sessionId with
  | none => .error "Session not found!"
  | some sess =>
    match findStation s sess.stationId with
    | none => .error "TypeError: station data not found"
    | some st =>
      let duration : Int := Int.fdiv (now - sess.startTime) 1000
      let kwhConsumed : ℚ := ((duration : ℚ) / 3600) * 25
      let cost : ℚ := kwhConsumed * effectivePrice st
      match findUser s uid with
      | none => .error "User document missing"
      | some _ => .ok
        { s with
          activeSessions := s.activeSessions.filter (fun ss => ¬ ss.id == sessionId)
          stations := updStations s.stations sess.stationId incSlot
          users := updUsers s.users uid addPoints
          bookings := (s.bookings ++
            [⟨bookingId, sess.userId, sess.stationId, now, duration, cost, kwhConsumed⟩]) }

/-- Firestore `FieldValue.arrayUnion(uid)` on a queue: append `uid` at
the end unless it is already an element. -/
def arrayUnion (q : List String) (uid : String) : List String :=
  if uid ∈ q then q else q ++ [uid]

/-- `joinQueue(stationId)` (script.js 1146–1158):
`stationRef.update({queue: arrayUnion(loggedInUser.uid)})`; the update
fails when the station document is missing, otherwise it applies
`arrayUnion` to the queue. -/
def joinQueue (s : AppState) (uid stationId : String) : Except String AppState :=
  match findStation s stationId with
  | none => .error "Could not join queue."
  | some _ => .ok
    { s with stations := (updStations s.stations stationId
        (fun st => { st with queue := arrayUnion st.queue uid })) }

/-- `toggleFavorite(stationId)` on the favorites list (script.js
1132–1144): `indexOf` followed by `splice(index, 1)` removes the first
occurrence when present, otherwise `push` appends at the end. -/
def toggleFav (l : List String) (stationId : String) : List String :=
  if stationId ∈ l then l.erase stationId else l ++ [stationId]

/-- `toggleFavorite` lifted to the state: mutate `userProfile.favorites`
of the logged-in user and persist the whole profile
(`updateUserProfile`). -/
def toggleFavorite (s : AppState) (uid stationId : String) : AppState :=
  { s with users := (updUsers s.users uid
      (fun u => { u with profile :=
        { u.profile with favorites := toggleFav u.profile.favorites stationId } })) }

/-- The values read out of the admin station form (script.js
1292–1312).  `stationId` is the hidden field: the empty string means
"create".  `pricePerKwh` goes through `parseInt`, hence `Int`. -/
structure StationForm where
  stationId : String
  name : String
  city : String
  lat : ℚ
  lng : ℚ
  mobile : String
  totalSlots : Int
  availableSlots : Int
  price : Int
  status : String
  image : String
  amenities : List String
  chargerTypes : List String
deriving Repr, DecidableEq

/-- The `formData` fields written over an existing station document by
`update(formData)`: every field of the form, and nothing else — in
particular `queue` and `currentPrice` are left as they were. -/
def applyForm (f : StationForm) (st : Station) : Station :=
  { st with
    name := f.name
    city := f.city
    lat := f.lat
    lng := f.lng
    mobile := f.mobile
    slots := ⟨f.totalSlots, f.availableSlots⟩
    pricePerKwh := (f.price : ℚ)
    status := f.status
    images := [f.image]
    amenities := f.amenities
    chargerTypes := f.chargerTypes }

/-- A freshly created station document: `formData` plus `queue = []`
(script.js 1318); no `currentPrice` field is ever written. -/
def newStation (f : StationForm) (newId : String) : Station :=
  { id := newId
    name := f.name
    city := f.city
    lat := f.lat
    lng := f.lng
    mobile := f.mobile
    slots := ⟨f.totalSlots, f.availableSlots⟩
    pricePerKwh := (f.price : ℚ)
    currentPrice := none
    status := f.status
    images := [f.image]
    amenities := f.amenities
    chargerTypes := f.chargerTypes
    queue := [] }

/-- The `admin-station-form` submit handler (script.js 1289–1329):
reject when `availableSlots > totalSlots` before any write; otherwise
`update(formData)` on the existing document (editing, fails when the
document is missing) or `add({...formData, queue: []})` (creating,
`newId` is the store-assigned fresh id). -/
def adminSubmit (s : AppState) (f : StationForm) (newId : String) :
    Except String AppState :=
  if f.availableSlots > f.totalSlots then
    .error "Available slots cannot be greater than total slots."
  else if f.stationId ≠ "" then
    match findStation s f.stationId with
    | none => .error "Failed to save station."
    | some _ => .ok
      { s with stations := updStations s.stations f.stationId (applyForm f) }
  else .ok { s with stations := s.stations ++ [newStation f newId] }

/-- The initial profile written by `handleRegister` (script.js 132). -/
def initialProfile : Profile :=
  ⟨[], "Other", "light", 0, false⟩

/-- `handleRegister` (script.js 114–144): reject a password shorter than
6 characters before calling the auth provider; on successful
registration (`uid` is the identity assigned by the provider) create the
user document `{email, role, profile: initialProfile}`. -/
def handleRegister (s : AppState) (email password role uid : String) :
    Except String AppState :=
  if password.length < 6 then
    .error "Password must be at least 6 characters."
  else .ok { s with users := s.users ++ [⟨uid, email, role, initialProfile⟩] }

/-- The slot-accounting invariant, over a station list and a session
list: every station has a non-negative available count, and the
available count plus the station's live sessions never exceeds the
total. -/
def SlotInvL (stations : List Station) (sessions : List Session) : Prop :=
  ∀ st ∈ stations, 0 ≤ st.slots.available ∧
    st.slots.available
      + ((sessions.filter (fun ss => ss.stationId == st.id)).length : Int)
      ≤ st.slots.total

/-- The slot-accounting invariant maintained by the charging
transactions, on a state. -/
def SlotInv (s : AppState) : Prop :=
  SlotInvL s.stations s.activeSessions

/-! ## Concrete fixtures and the serialized-run harness -/

/-- A registered user document. -/
def uAlice : UserDoc :=
  ⟨"alice", "alice@mail.test", "user", ⟨[], "Other", "light", 0, false⟩⟩

/-- A demo station with two slots, both available. -/
def stDemo : Station :=
  ⟨"s1", "Green Park", "Pune", 0, 0, "900", ⟨2, 2⟩, 10, none,
    "Operational", ["img"], ["Cafe"], ["CCS"], []⟩

/-- A demo state: one station, no sessions, one user. -/
def demoState : AppState := ⟨[stDemo], [], [], [uAlice]⟩

/-- A session whose owning station has been deleted from the store. -/
def ghostSession : Session := ⟨"sess1", "alice", "ghost", 0⟩

/-- A state holding `ghostSession` but no station at all. -/
def orphanState : AppState := ⟨[], [ghostSession], [], [uAlice]⟩

/-- A station whose peak override is set *below* its base price. -/
def stPeakLow : Station :=
  ⟨"s1", "Peak", "Pune", 0, 0, "900", ⟨2, 1⟩, 10, some 5,
    "Operational", ["img"], [], [], []⟩

/-- A state with one hour of charging elapsed at `stPeakLow`. -/
def peakState : AppState :=
  ⟨[stPeakLow], [⟨"sess1", "alice", "s1", 0⟩], [], [uAlice]⟩

/-- An admin form submission with a negative available count: the form
only validates `available > total`, so `-1 ≤ 5` slips through. -/
def negForm : StationForm :=
  ⟨"", "Neg", "Pune", 0, 0, "9", 5, -1, 10, "Operational", "img", [], []⟩

/-- The countdown `[k-1, k-2, …, k-n]` of post-decrement slot counts
observed by `n` consecutive successful starts from `k` free slots. -/
def descFrom : Int → Nat → List Int
  | _, 0 => []
  | k, n + 1 => (k - 1) :: descFrom (k - 1) n

/-- Run a list of `startCharging` calls (caller uid, fresh session id)
against one station, in the order the store serializes their
transactions; record for each call the post-decrement available count
it observes (`none` for a failed call).  Firestore serializes
transactions on the same document, so every concurrent execution is
some such order. -/
def runStartCalls (stationId : String) (now : Int) :
    AppState → List (String × String) → AppState × List (Option Int)
  | s, [] => (s, [])
  | s, c :: rest =>
    match startCharging s c.1 stationId c.2 now with
    | .ok s1 =>
      let r := runStartCalls stationId now s1 rest
      (r.1, ((findStation s1 stationId).map (fun t => t.slots.available)) :: r.2)
    | .error _ =>
      let r := runStartCalls stationId now s rest
      (r.1, none :: r.2)

/-! ## Helper lemmas about the store operations -/

/-- `find?` commutes with a map that does not change the predicate's
verdict on any element. -/
theorem find?_map_pres {α : Type} (g : α → α) (q : α → Bool)
    (hq : ∀ a, q (g a) = q a) :
    ∀ l : List α, (l.map g).find? q = (l.find? q).map g
  | [] => rfl
  | a :: l => by
    cases h : q a with
    | true => simp [List.find?, hq, h]
    | false => simpa [List.find?, hq, h] using find?_map_pres g q hq l

/-- The station update touches only ids equal to `stationId`; looking any
id up afterwards returns the (possibly updated) old document. -/
theorem find?_updStations (l : List Station) (stationId x : String)
    (f : Station → Station) (hf : ∀ st, (f st).id = st.id) :
    (updStations l stationId f).find? (fun st => st.id == x)
      = (l.find? (fun st => st.id == x)).map
          (fun st => if st.id == stationId then f st else st) := by
  refine find?_map_pres _ _ (fun a => ?_) l
  by_cases h : (a.id == stationId) = true
  · simp [h, hf]
  · simp [h]

/-- The user update touches only ids equal to `uid`. -/
theorem find?_updUsers (l : List UserDoc) (uid x : String)
    (f : UserDoc → UserDoc) (hf : ∀ u, (f u).id = u.id) :
    (updUsers l uid f).find? (fun u => u.id == x)
      = (l.find? (fun u => u.id == x)).map
          (fun u => if u.id == uid then f u else u) := by
  refine find?_map_pres _ _ (fun a => ?_) l
  by_cases h : (a.id == uid) = true
  · simp [h, hf]
  · simp [h]

/-- With pairwise-distinct keys, any element whose key matches a
successful `find?` is the found element itself. -/
theorem eq_find?_of_nodup_keys {α : Type} (key : α → String) :
    ∀ (l : List α) (sid : String) (a b : α),
      (l.map key).Nodup → l.find? (fun x => key x == sid) = some a →
      b ∈ l → (key b == sid) = true → b = a
  | [], _, _, _, _, hfind, hb, _ => by cases hb
  | c :: l, sid, a, b, hnd, hfind, hb, hkb => by
    rw [List.map_cons, List.nodup_cons] at hnd
    by_cases hc : (key c == sid) = true
    · have hca : c = a := by
        simpa [List.find?, hc] using hfind
      rcases List.mem_cons.mp hb with hbc | hbl
      · exact hbc.trans hca
      · exfalso
        apply hnd.1
        have : key b = key c := (eq_of_beq hkb).trans (eq_of_beq hc).symm
        exact this ▸ List.mem_map_of_mem key hbl
    · have hfind' : l.find? (fun x => key x == sid) = some a := by
        simpa [List.find?, hc] using hfind
      rcases List.mem_cons.mp hb with hbc | hbl
      · exact absurd (hbc ▸ hkb) hc
      · exact eq_find?_of_nodup_keys key l sid a b hnd.2 hfind' hbl hkb

/-- Sessions owned by a station after appending one session. -/
theorem sessionsIn_append (l : List Session) (sess : Session) (x : String) :
    (((l ++ [sess]).filter (fun ss => ss.stationId == x)).length : Int)
      = ((l.filter (fun ss => ss.stationId == x)).length : Int)
        + (if (sess.stationId == x) = true then 1 else 0) := by
  rw [List.filter_append]
  by_cases h : (sess.stationId == x) = true
  · simp [h]
  · simp [h]

/-- Deleting the session document found under a key removes exactly that
session from every station's count, provided session ids are pairwise
distinct. -/
theorem sessionsIn_filterOut :
    ∀ (l : List Session) (sid x : String) (sess : Session),
      (l.map (fun ss => ss.id)).Nodup →
      l.find? (fun ss => ss.id == sid) = some sess →
      (((l.filter (fun ss => ¬ ss.id == sid)).filter
          (fun ss => ss.stationId == x)).length : Int)
        = ((l.filter (fun ss => ss.stationId == x)).length : Int)
          - (if sess.stationId == x then 1 else 0)
  | [], _, _, _, _, hfind => by cases hfind
  | c :: l, sid, x, sess, hnd, hfind => by
    rw [List.map_cons, List.nodup_cons] at hnd
    by_cases hc : (c.id == sid) = true
    · have hcs : c = sess := by simpa [List.find?, hc] using hfind
      have hrest : l.filter (fun ss => ¬ ss.id == sid) = l := by
        apply List.filter_eq_self.mpr
        intro a ha
        have : a.id ≠ c.id := fun he =>
          hnd.1 (he ▸ List.mem_map_of_mem (fun ss => ss.id) ha)
        have : ¬ (a.id == sid) = true := fun hb =>
          this ((eq_of_beq hb).trans (eq_of_beq hc).symm)
        simpa using this
      subst hcs
      rw [List.filter_cons, if_neg (by simp [hc]), hrest, List.filter_cons]
      by_cases hx : (c.stationId == x) = true
      · simp [hx]
      · simp [hx]
    · have hfind' : l.find? (fun ss => ss.id == sid) = some sess := by
        simpa [List.find?, hc] using hfind
      have ih := sessionsIn_filterOut l sid x sess hnd.2 hfind'
      rw [List.filter_cons, if_pos (by simp [hc]), List.filter_cons,
        List.filter_cons]
      by_cases hx : (c.stationId == x) = true
      · simp only [hx, if_pos, List.length_cons]
        push_cast
        omega
      · simp only [hx, if_neg, Bool.false_eq_true, not_false_eq_true]
        exact ih

/-- Deleting by a key that `find?` resolves removes exactly the found
element when keys are pairwise distinct. -/
theorem filterOut_eq_erase :
    ∀ (l : List Session) (sid : String) (sess : Session),
      (l.map (fun ss => ss.id)).Nodup →
      l.find? (fun ss => ss.id == sid) = some sess →
      l.filter (fun ss => ¬ ss.id == sid) = l.erase sess
  | [], _, _, _, hfind => by cases hfind
  | c :: l, sid, sess, hnd, hfind => by
    rw [List.map_cons, List.nodup_cons] at hnd
    by_cases hc : (c.id == sid) = true
    · have hcs : c = sess := by simpa [List.find?, hc] using hfind
      subst hcs
      rw [List.filter_cons, if_neg (by simp [hc]), List.erase_cons_head]
      apply List.filter_eq_self.mpr
      intro a ha
      have : a.id ≠ c.id := fun he =>
        hnd.1 (he ▸ List.mem_map_of_mem (fun ss => ss.id) ha)
      have : ¬ (a.id == sid) = true := fun hb =>
        this ((eq_of_beq hb).trans (eq_of_beq hc).symm)
      simpa using this
    · have hfind' : l.find? (fun ss => ss.id == sid) = some sess := by
        simpa [List.find?, hc] using hfind
      have hcne : ¬ (c == sess) = true := by
        intro he
        have hs := List.find?_some hfind'
        rw [eq_of_beq he] at hc
        exact hc hs
      rw [List.filter_cons, if_pos (by simp [hc]),
        List.erase_cons_tail hcne,
        filterOut_eq_erase l sid sess hnd.2 hfind']

/-! ## C2 — StartSession success and failure behaviour -/

/-- **C2.** `startCharging` succeeds iff the station exists and
`slots.available > 0`; on success it decrements `slots.available` by
exactly 1 and appends exactly one active-session record
`{userId, stationId, startTime}`, leaving every other station document,
the bookings and the users unchanged; a missing station fails with
`"Station does not exist!"` and an exhausted station with
`"No available slots!"`, and a failed transaction leaves the state with
the caller unmodified. -/
theorem startCharging_spec (s : AppState) (uid stationId sessionId : String)
    (now : Int) :
    (findStation s stationId = none →
      startCharging s uid stationId sessionId now
        = .error "Station does not exist!") ∧
    (∀ st, findStation s stationId = some st →
      (st.slots.available ≤ 0 →
        startCharging s uid stationId sessionId now
          = .error "No available slots!") ∧
      (0 < st.slots.available →
        ∃ s', startCharging s uid stationId sessionId now = .ok s' ∧
          findStation s' stationId = some
            { st with slots := { st.slots with available := st.slots.available - 1 } } ∧
          (∀ t ∈ s.stations, t.id ≠ stationId → t ∈ s'.stations) ∧
          s'.stations.length = s.stations.length ∧
          s'.activeSessions = s.activeSessions ++ [⟨sessionId, uid, stationId, now⟩] ∧
          s'.bookings = s.bookings ∧
          s'.users = s.users) ∧
      ((∃ s', startCharging s uid stationId sessionId now = .ok s')
        ↔ 0 < st.slots.available)) := by
  constructor
  · intro h
    simp [startCharging, h]
  · intro st hst
    have hst' : s.stations.find? (fun t => t.id == stationId) = some st := hst
    have hid : (st.id == stationId) = true := by
      simpa using List.find?_some hst'
    have hsucc : 0 < st.slots.available →
        ∃ s', startCharging s uid stationId sessionId now = .ok s' ∧
          findStation s' stationId = some
            { st with slots := { st.slots with available := st.slots.available - 1 } } ∧
          (∀ t ∈ s.stations, t.id ≠ stationId → t ∈ s'.stations) ∧
          s'.stations.length = s.stations.length ∧
          s'.activeSessions = s.activeSessions ++ [⟨sessionId, uid, stationId, now⟩] ∧
          s'.bookings = s.bookings ∧
          s'.users = s.users := by
      intro h
      have hle : ¬ st.slots.available ≤ 0 := not_le.mpr h
      refine ⟨{ s with
          stations := updStations s.stations stationId decSlot
          activeSessions := s.activeSessions ++ [⟨sessionId, uid, stationId, now⟩] },
        ?_, ?_, ?_, ?_, rfl, rfl, rfl⟩
      · simp [startCharging, hst, hle]
      · show List.find? (fun t => t.id == stationId)
          (updStations s.stations stationId decSlot) = _
        rw [find?_updStations s.stations stationId stationId decSlot
          (fun t => rfl), hst']
        simp [decSlot, eq_of_beq hid]
      · intro t ht hne
        have hb : ¬ (t.id == stationId) = true := by simpa using hne
        show t ∈ updStations s.stations stationId decSlot
        exact List.mem_map.mpr ⟨t, ht, by simp [hb]⟩
      · simp [updStations]
    refine ⟨?_, hsucc, ?_, fun h => (hsucc h).elim fun s' hs' => ⟨s', hs'.1⟩⟩
    · intro h
      simp [startCharging, hst, h]
    · rintro ⟨s', hs'⟩
      by_contra h
      have hle : st.slots.available ≤ 0 := not_lt.mp h
      simp [startCharging, hst, hle] at hs'

/-- Witness for **C2**: the demo station has 2 free slots, so a start
succeeds and leaves 1 free slot. -/
theorem startCharging_spec_witness :
    ∃ s', startCharging demoState "alice" "s1" "n1" 5 = .ok s' ∧
      findStation s' "s1" = some
        { stDemo with slots := { stDemo.slots with available := stDemo.slots.available - 1 } } := by
  obtain ⟨s', h1, h2, -⟩ :=
    ((startCharging_spec demoState "alice" "s1" "n1" 5).2 stDemo (by decide)).2.1
      (by decide)
  exact ⟨s', h1, h2⟩

/-! ## C3 — StopSession effects -/

/-- **C3 (amended).** When the active session exists, *its owning
station is still present in the local station list*, and the calling
user's document exists and the caller is the session's owner (the only
case the UI produces: the stop button carries the caller's own session
id), `stopCharging` performs the four effects as one unit: deletes
exactly that session, increments the owning station's
`slots.available` by exactly 1, increments the user's loyalty points by
exactly 10, and appends exactly one booking with
`duration = floor((now − startTime)/1000)` whole seconds,
`kwhConsumed = duration/3600 × 25` and
`cost = kwhConsumed × effectivePrice`; when no session with the id
exists it fails with `"Session not found!"` and no record changes.
(The unamended claim fails when the owning station has been deleted
mid-session: then the operation throws before the transaction and none
of the four effects happens — see the counterexample.) -/
theorem stopCharging_spec (s : AppState) (uid sessionId bookingId : String)
    (now : Int)
    (hnd : (s.activeSessions.map (fun ss => ss.id)).Nodup) :
    (findSession s sessionId = none →
      stopCharging s uid sessionId bookingId now = .error "Session not found!") ∧
    (∀ sess st u, findSession s sessionId = some sess →
      findStation s sess.stationId = some st →
      findUser s uid = some u →
      sess.userId = uid →
      ∃ s', stopCharging s uid sessionId bookingId now = .ok s' ∧
        s'.activeSessions = s.activeSessions.erase sess ∧
        s'.activeSessions.length + 1 = s.activeSessions.length ∧
        findStation s' sess.stationId = some
          { st with slots := { st.slots with available := st.slots.available + 1 } } ∧
        findUser s' uid = some
          { u with profile :=
            { u.profile with loyaltyPoints := u.profile.loyaltyPoints + 10 } } ∧
        s'.bookings = s.bookings ++
          [⟨bookingId, sess.userId, sess.stationId, now,
            Int.fdiv (now - sess.startTime) 1000,
            (((Int.fdiv (now - sess.startTime) 1000 : Int) : ℚ) / 3600) * 25
              * effectivePrice st,
            (((Int.fdiv (now - sess.startTime) 1000 : Int) : ℚ) / 3600) * 25⟩]) := by
  constructor
  · intro h
    simp [stopCharging, h]
  · intro sess st u hsess hst hu howner
    have hsess' : s.activeSessions.find? (fun ss => ss.id == sessionId) = some sess := hsess
    have hst' : s.stations.find? (fun t => t.id == sess.stationId) = some st := hst
    have hu' : s.users.find? (fun v => v.id == uid) = some u := hu
    have hidst : (st.id == sess.stationId) = true := by
      simpa using List.find?_some hst'
    have hidu : (u.id == uid) = true := by
      simpa using List.find?_some hu'
    have hmem : sess ∈ s.activeSessions := List.mem_of_find?_eq_some hsess'
    refine ⟨{ s with
        activeSessions := s.activeSessions.filter (fun ss => ¬ ss.id == sessionId)
        stations := updStations s.stations sess.stationId incSlot
        users := updUsers s.users uid addPoints
        bookings := (s.bookings ++
          [⟨bookingId, sess.userId, sess.stationId, now,
            Int.fdiv (now - sess.startTime) 1000,
            (((Int.fdiv (now - sess.startTime) 1000 : Int) : ℚ) / 3600) * 25
              * effectivePrice st,
            (((Int.fdiv (now - sess.startTime) 1000 : Int) : ℚ) / 3600) * 25⟩]) },
      ?_, ?_, ?_, ?_, ?_, rfl⟩
    · simp [stopCharging, hsess, hst, hu]
    · exact filterOut_eq_erase s.activeSessions sessionId sess hnd hsess'
    · have h1 : (s.activeSessions.filter (fun ss => ¬ ss.id == sessionId))
          = s.activeSessions.erase sess :=
        filterOut_eq_erase s.activeSessions sessionId sess hnd hsess'
      have h2 := List.length_erase_of_mem hmem
      have h3 : 1 ≤ s.activeSessions.length := List.length_pos_of_mem hmem
      show (s.activeSessions.filter (fun ss => ¬ ss.id == sessionId)).length + 1
        = s.activeSessions.length
      rw [h1, h2]
      omega
    · show List.find? (fun t => t.id == sess.stationId)
        (updStations s.stations sess.stationId incSlot) = _
      rw [find?_updStations s.stations sess.stationId sess.stationId incSlot
        (fun t => rfl), hst']
      simp [incSlot, eq_of_beq hidst]
    · show List.find? (fun v => v.id == uid)
        (updUsers s.users uid addPoints) = _
      rw [find?_updUsers s.users uid uid addPoints
        (fun v => rfl), hu']
      simp [addPoints, eq_of_beq hidu]

/-- Counterexample for **C3** as stated: an active session with the
requested id exists, yet `stopCharging` performs none of the four
effects — the owning station is gone (an admin can delete a station
while a session is running), so the session-stop throws before its
transaction. -/
theorem stopCharging_missing_station :
    findSession orphanState "sess1" = some ghostSession ∧
    stopCharging orphanState "alice" "sess1" "b1" 5000
      = .error "TypeError: station data not found" := by
  exact ⟨rfl, rfl⟩

/-- Witness for **C3 (amended)** at a concrete state: stopping the only
session of `runningState` succeeds. -/
theorem stopCharging_spec_witness :
    ∃ s', stopCharging ⟨[stDemo], [⟨"sess1", "alice", "s1", 0⟩], [], [uAlice]⟩
        "alice" "sess1" "b1" 7200000 = .ok s' ∧
      s'.activeSessions = [] := by
  obtain ⟨s', h1, h2, -⟩ :=
    (stopCharging_spec ⟨[stDemo], [⟨"sess1", "alice", "s1", 0⟩], [], [uAlice]⟩
        "alice" "sess1" "b1" 7200000 (by decide)).2
      ⟨"sess1", "alice", "s1", 0⟩ stDemo uAlice (by decide) (by decide) (by decide) rfl
  exact ⟨s', h1, by rw [h2]; rfl⟩

/-! ## C4 — effective price at StopSession -/

/-- **C4 (amended).** The price used to compute a booking's cost at
`stopCharging` is the JS-truthy selection
`currentPrice || pricePerKwh`: the peak override `currentPrice`
whenever it is set and nonzero — *regardless of how it compares with
`pricePerKwh`* — and the base `pricePerKwh` only when the override is
unset (or the falsy value `0`).  In particular, a `currentPrice` set
below the base price is still the one billed, contrary to the claim's
"if set and strictly greater". -/
theorem stopCharging_price (s : AppState) (uid sessionId bookingId : String)
    (now : Int) (sess : Session) (st : Station) (u : UserDoc)
    (hsess : findSession s sessionId = some sess)
    (hst : findStation s sess.stationId = some st)
    (hu : findUser s uid = some u) :
    ∃ s', stopCharging s uid sessionId bookingId now = .ok s' ∧
      s'.bookings = s.bookings ++
        [⟨bookingId, sess.userId, sess.stationId, now,
          Int.fdiv (now - sess.startTime) 1000,
          (((Int.fdiv (now - sess.startTime) 1000 : Int) : ℚ) / 3600) * 25
            * effectivePrice st,
          (((Int.fdiv (now - sess.startTime) 1000 : Int) : ℚ) / 3600) * 25⟩] ∧
      (∀ p, st.currentPrice = some p → p ≠ 0 → effectivePrice st = p) ∧
      (st.currentPrice = none → effectivePrice st = st.pricePerKwh) ∧
      (st.currentPrice = some 0 → effectivePrice st = st.pricePerKwh) := by
  refine ⟨{ s with
      activeSessions := s.activeSessions.filter (fun ss => ¬ ss.id == sessionId)
      stations := updStations s.stations sess.stationId incSlot
      users := updUsers s.users uid addPoints
      bookings := (s.bookings ++
        [⟨bookingId, sess.userId, sess.stationId, now,
          Int.fdiv (now - sess.startTime) 1000,
          (((Int.fdiv (now - sess.startTime) 1000 : Int) : ℚ) / 3600) * 25
            * effectivePrice st,
          (((Int.fdiv (now - sess.startTime) 1000 : Int) : ℚ) / 3600) * 25⟩]) },
    ?_, rfl, ?_, ?_, ?_⟩
  · simp [stopCharging, hsess, hst, hu]
  · intro p hp hp0
    simp [effectivePrice, hp, hp0]
  · intro hp
    simp [effectivePrice, hp]
  · intro hp
    simp [effectivePrice, hp]

/-- Counterexample for **C4** as stated: `currentPrice = 5` is set but
not greater than `pricePerKwh = 10`, yet after one hour (25 kWh) the
booking costs `125 = 25 × 5` — the code billed the override, while the
claim demands `250 = 25 × pricePerKwh`. -/
theorem stopCharging_price_counterexample :
    stPeakLow.currentPrice = some 5 ∧
    stPeakLow.pricePerKwh = 10 ∧
    (∃ s', stopCharging peakState "alice" "sess1" "b1" 3600000 = .ok s' ∧
      s'.bookings.map (fun b => b.cost) = [125]) ∧
    effectivePriceSpec stPeakLow = 10 ∧
    ((125 : ℚ) = 25 * 5 ∧ (125 : ℚ) ≠ 25 * effectivePriceSpec stPeakLow) := by
  have hspec : effectivePriceSpec stPeakLow = 10 := by
    show (if (10 : ℚ) < 5 then (5 : ℚ) else 10) = 10
    norm_num
  have heff : effectivePrice stPeakLow = 5 := by
    show (if (5 : ℚ) = 0 then (10 : ℚ) else 5) = 5
    norm_num
  refine ⟨rfl, rfl, ⟨{ peakState with
      activeSessions := peakState.activeSessions.filter (fun ss => ¬ ss.id == "sess1")
      stations := updStations peakState.stations "s1" incSlot
      users := updUsers peakState.users "alice" addPoints
      bookings := (peakState.bookings ++ [⟨"b1", "alice", "s1", 3600000,
        Int.fdiv (3600000 - 0) 1000,
        ((Int.fdiv (3600000 - 0) 1000 : Int) : ℚ) / 3600 * 25 * effectivePrice stPeakLow,
        ((Int.fdiv (3600000 - 0) 1000 : Int) : ℚ) / 3600 * 25⟩]) },
    rfl, ?_⟩, hspec, by norm_num, by rw [hspec]; norm_num⟩
  show List.map (fun b : Booking => b.cost) ([] ++ [(⟨"b1", "alice", "s1", 3600000,
    Int.fdiv (3600000 - 0) 1000,
    ((Int.fdiv (3600000 - 0) 1000 : Int) : ℚ) / 3600 * 25 * effectivePrice stPeakLow,
    ((Int.fdiv (3600000 - 0) 1000 : Int) : ℚ) / 3600 * 25⟩ : Booking)]) = [125]
  rw [List.nil_append, List.map_cons, List.map_nil]
  rw [show Int.fdiv (3600000 - 0) 1000 = 3600 from by decide, heff]
  norm_num

/-- Witness for **C4 (amended)**: at `peakState` the amended theorem
applies and bills the nonzero override. -/
theorem stopCharging_price_witness :
    ∃ s', stopCharging peakState "alice" "sess1" "b1" 3600000 = .ok s' ∧
      effectivePrice stPeakLow = 5 := by
  obtain ⟨s', h1, -⟩ :=
    stopCharging_price peakState "alice" "sess1" "b1" 3600000
      ⟨"sess1", "alice", "s1", 0⟩ stPeakLow uAlice rfl rfl rfl
  exact ⟨s', h1, by decide⟩

/-! ## C5 — JoinQueue FIFO append without duplicates -/

/-- **C5.** `joinQueue` applies Firestore's `arrayUnion` to the
station's queue: a new user id is appended at the very end (all earlier
entries keep their order and positions — the old queue is a prefix of
the new one), an id already present leaves the queue exactly unchanged,
and a duplicate-free queue stays duplicate-free, so no sequence of
`joinQueue` calls ever inserts a duplicate user identifier. -/
theorem joinQueue_spec (s : AppState) (uid stationId : String) (st : Station)
    (hst : findStation s stationId = some st) :
    ∃ s', joinQueue s uid stationId = .ok s' ∧
      findStation s' stationId = some { st with queue := arrayUnion st.queue uid } ∧
      (uid ∉ st.queue → arrayUnion st.queue uid = st.queue ++ [uid]) ∧
      (uid ∈ st.queue → arrayUnion st.queue uid = st.queue) ∧
      (arrayUnion st.queue uid).take st.queue.length = st.queue ∧
      (st.queue.Nodup → (arrayUnion st.queue uid).Nodup) := by
  have hst' : s.stations.find? (fun t => t.id == stationId) = some st := hst
  have hid : (st.id == stationId) = true := by simpa using List.find?_some hst'
  refine ⟨{ s with stations := (updStations s.stations stationId
      (fun t => { t with queue := arrayUnion t.queue uid })) },
    by simp [joinQueue, hst], ?_, ?_, ?_, ?_, ?_⟩
  · show List.find? (fun t => t.id == stationId) (updStations s.stations stationId
      (fun t => { t with queue := arrayUnion t.queue uid })) = _
    rw [find?_updStations s.stations stationId stationId
      (fun t => { t with queue := arrayUnion t.queue uid }) (fun t => rfl), hst']
    simp [eq_of_beq hid]
  · intro h
    simp [arrayUnion, h]
  · intro h
    simp [arrayUnion, h]
  · by_cases h : uid ∈ st.queue
    · simp [arrayUnion, h, List.take_length]
    · simp [arrayUnion, h, List.take_left]
  · intro hnd
    by_cases h : uid ∈ st.queue
    · simpa [arrayUnion, h] using hnd
    · rw [arrayUnion, if_neg h]
      exact hnd.append (List.nodup_singleton uid)
        (List.disjoint_singleton.mpr h)

/-- Witness for **C5**: joining the empty queue of the demo station. -/
theorem joinQueue_spec_witness :
    ∃ s', joinQueue demoState "alice" "s1" = .ok s' ∧
      findStation s' "s1" = some { stDemo with queue := arrayUnion stDemo.queue "alice" } := by
  obtain ⟨s', h1, h2, -⟩ := joinQueue_spec demoState "alice" "s1" stDemo (by decide)
  exact ⟨s', h1, h2⟩

/-! ## C9 — toggleFavorite flips membership -/

/-- `toggleFav` preserves absence of duplicates. -/
theorem toggleFav_nodup (l : List String) (s : String) (h : l.Nodup) :
    (toggleFav l s).Nodup := by
  by_cases hs : s ∈ l
  · rw [toggleFav, if_pos hs]
    exact h.erase s
  · rw [toggleFav, if_neg hs]
    exact h.append (List.nodup_singleton s) (List.disjoint_singleton.mpr hs)

/-- Every favorites list the program produces is duplicate-free: the
profile starts with `favorites = []` and is only mutated by
`toggleFav`. -/
theorem foldl_toggleFav_nodup (ops : List String) :
    ∀ l : List String, l.Nodup → (ops.foldl toggleFav l).Nodup := by
  induction ops with
  | nil => exact fun l h => h
  | cons o ops ih =>
    intro l h
    exact ih (toggleFav l o) (toggleFav_nodup l o h)

/-- **C9.** On every duplicate-free favorites list (all lists the code
produces are: they start empty and are only mutated by the toggle, as
the last conjunct shows), `toggleFav` flips the membership of the
toggled station id, leaves every other id's membership unchanged, and
applying it twice restores the original favorites set. -/
theorem toggleFav_spec (l : List String) (s x : String) (h : l.Nodup) :
    ((s ∈ toggleFav l s) ↔ s ∉ l) ∧
    (x ≠ s → ((x ∈ toggleFav l s) ↔ x ∈ l)) ∧
    (∀ y, y ∈ toggleFav (toggleFav l s) s ↔ y ∈ l) ∧
    (toggleFav l s).Nodup ∧
    (∀ ops : List String, (ops.foldl toggleFav ([] : List String)).Nodup) := by
  refine ⟨?_, ?_, ?_, toggleFav_nodup l s h,
    fun ops => foldl_toggleFav_nodup ops [] List.nodup_nil⟩
  · by_cases hs : s ∈ l
    · rw [toggleFav, if_pos hs]
      simp [h.mem_erase_iff, hs]
    · rw [toggleFav, if_neg hs]
      simp [hs]
  · intro hx
    by_cases hs : s ∈ l
    · rw [toggleFav, if_pos hs]
      simp [h.mem_erase_iff, hx]
    · rw [toggleFav, if_neg hs]
      simp [hx]
  · intro y
    by_cases hs : s ∈ l
    · have h1 : toggleFav l s = l.erase s := by rw [toggleFav, if_pos hs]
      have hsn : s ∉ l.erase s := fun hmem => ((h.mem_erase_iff).mp hmem).1 rfl
      have h2 : toggleFav (toggleFav l s) s = l.erase s ++ [s] := by
        rw [h1, toggleFav, if_neg hsn]
      rw [h2]
      by_cases hy : y = s
      · subst hy
        simp [hs]
      · simp [h.mem_erase_iff, hy]
    · have h1 : toggleFav l s = l ++ [s] := by rw [toggleFav, if_neg hs]
      have hsm : s ∈ l ++ [s] := by simp
      have h2 : toggleFav (toggleFav l s) s = l := by
        rw [h1, toggleFav, if_pos hsm, List.erase_append_right [s] hs]
        simp
      rw [h2]

/-- Witness for **C9** on a concrete duplicate-free list. -/
theorem toggleFav_spec_witness :
    ("b" ∈ toggleFav ["a"] "b") ↔ "b" ∉ ["a"] :=
  (toggleFav_spec ["a"] "b" "x" (by decide)).1

/-! ## C10 — initial profile at registration -/

/-- **C10.** Every successfully registered user's document is created
with the selected role and the exact initial profile
`{favorites: [], vehicle: 'Other', theme: 'light', loyaltyPoints: 0,
hasCompletedTour: false}`: loyalty points always start at 0 and the
favorites list starts empty, and no existing user document is touched. -/
theorem handleRegister_spec (s : AppState) (email password role uid : String)
    (h : 6 ≤ password.length) :
    ∃ s', handleRegister s email password role uid = .ok s' ∧
      s'.users = s.users ++ [⟨uid, email, role, initialProfile⟩] ∧
      (∃ u, s'.users.getLast? = some u ∧ u.role = role ∧ u.email = email ∧
        u.profile = initialProfile) ∧
      initialProfile.loyaltyPoints = 0 ∧
      initialProfile.favorites = [] ∧
      initialProfile.vehicle = "Other" ∧
      initialProfile.theme = "light" ∧
      initialProfile.hasCompletedTour = false ∧
      (∀ u ∈ s.users, u ∈ s'.users) := by
  have h' : ¬ password.length < 6 := not_lt.mpr h
  refine ⟨{ s with users := s.users ++ [⟨uid, email, role, initialProfile⟩] },
    by simp [handleRegister, h'], rfl,
    ⟨⟨uid, email, role, initialProfile⟩, ?_, rfl, rfl, rfl⟩,
    rfl, rfl, rfl, rfl, rfl, ?_⟩
  · exact List.getLast?_concat s.users
  · intro u hu
    exact List.mem_append_left _ hu

/-- Witness for **C10** with a 6-character password. -/
theorem handleRegister_spec_witness :
    ∃ s', handleRegister demoState "bob@mail.test" "secret" "user" "bob" = .ok s' ∧
      s'.users = demoState.users ++ [⟨"bob", "bob@mail.test", "user", initialProfile⟩] := by
  obtain ⟨s', h1, h2, -⟩ :=
    handleRegister_spec demoState "bob@mail.test" "secret" "user" "bob" (by decide)
  exact ⟨s', h1, h2⟩

/-! ## C7 and C8 — the admin station form -/

/-- `find?` skips a prefix on which the predicate never holds. -/
theorem find?_append_none {α : Type} (p : α → Bool) :
    ∀ l₁ l₂ : List α, (∀ a ∈ l₁, ¬ p a = true) →
      (l₁ ++ l₂).find? p = l₂.find? p
  | [], _, _ => rfl
  | a :: l₁, l₂, h => by
    have ha : ¬ p a = true := h a (List.mem_cons_self a l₁)
    simp only [List.cons_append, List.find?]
    rw [Bool.eq_false_iff.mpr ha]
    exact find?_append_none p l₁ l₂ (fun b hb => h b (List.mem_cons_of_mem a hb))

/-- **C7.** Round-trip of the admin create form: when the submitted
`availableSlots ≤ totalSlots`, the creation succeeds and reading the new
station back yields exactly the submitted `slots.total` and
`slots.available`; when `availableSlots > totalSlots` the submission is
rejected with the validation message before any write. -/
theorem adminSubmit_roundtrip (s : AppState) (f : StationForm) (newId : String)
    (hcreate : f.stationId = "")
    (hfresh : ∀ t ∈ s.stations, t.id ≠ newId) :
    (f.availableSlots ≤ f.totalSlots →
      ∃ s', adminSubmit s f newId = .ok s' ∧
        findStation s' newId = some (newStation f newId) ∧
        (newStation f newId).slots.total = f.totalSlots ∧
        (newStation f newId).slots.available = f.availableSlots) ∧
    (f.totalSlots < f.availableSlots →
      adminSubmit s f newId
        = .error "Available slots cannot be greater than total slots.") := by
  constructor
  · intro hval
    have hv : ¬ f.availableSlots > f.totalSlots := not_lt.mpr hval
    refine ⟨{ s with stations := s.stations ++ [newStation f newId] },
      by simp [adminSubmit, hv, hcreate], ?_, rfl, rfl⟩
    show List.find? (fun t => t.id == newId) (s.stations ++ [newStation f newId]) = _
    rw [find?_append_none (fun t => t.id == newId) s.stations [newStation f newId]
      (fun t ht => by simpa using hfresh t ht)]
    simp [newStation]
  · intro hval
    simp [adminSubmit, hval]

/-- Witness for **C7**: creating a fresh station with 3 total and 2
available slots on the demo state round-trips. -/
theorem adminSubmit_roundtrip_witness :
    ∃ s', adminSubmit demoState
        ⟨"", "New", "Pune", 1, 2, "9", 3, 2, 12, "Operational", "img", [], []⟩ "s2"
      = .ok s' ∧
      findStation s' "s2" = some
        (newStation ⟨"", "New", "Pune", 1, 2, "9", 3, 2, 12, "Operational", "img", [], []⟩ "s2") := by
  obtain ⟨s', h1, h2, -⟩ :=
    (adminSubmit_roundtrip demoState
      ⟨"", "New", "Pune", 1, 2, "9", 3, 2, 12, "Operational", "img", [], []⟩ "s2"
      rfl (by decide)).1 (by decide)
  exact ⟨s', h1, h2⟩

/-- **C8.** Frame property of the admin form: editing an existing
station overwrites exactly the form fields (name, city, lat, lng,
mobile, slots, pricePerKwh, status, images, amenities, chargerTypes)
while `queue`, `currentPrice` and the document id stay untouched, and
other stations keep their documents; creating a new station initializes
its `queue` to the empty list (and no `currentPrice` is written). -/
theorem adminSubmit_frame (s : AppState) (f : StationForm) (newId : String)
    (hval : f.availableSlots ≤ f.totalSlots) :
    (∀ st, f.stationId ≠ "" → findStation s f.stationId = some st →
      ∃ s', adminSubmit s f newId = .ok s' ∧
        findStation s' f.stationId = some (applyForm f st) ∧
        (applyForm f st).queue = st.queue ∧
        (applyForm f st).currentPrice = st.currentPrice ∧
        (applyForm f st).id = st.id ∧
        (applyForm f st).name = f.name ∧
        (applyForm f st).city = f.city ∧
        (applyForm f st).lat = f.lat ∧
        (applyForm f st).lng = f.lng ∧
        (applyForm f st).mobile = f.mobile ∧
        (applyForm f st).slots = ⟨f.totalSlots, f.availableSlots⟩ ∧
        (applyForm f st).pricePerKwh = (f.price : ℚ) ∧
        (applyForm f st).status = f.status ∧
        (applyForm f st).images = [f.image] ∧
        (applyForm f st).amenities = f.amenities ∧
        (applyForm f st).chargerTypes = f.chargerTypes ∧
        (∀ t ∈ s.stations, t.id ≠ f.stationId → t ∈ s'.stations)) ∧
    (f.stationId = "" →
      ∃ s', adminSubmit s f newId = .ok s' ∧
        s'.stations = s.stations ++ [newStation f newId] ∧
        (newStation f newId).queue = [] ∧
        (newStation f newId).currentPrice = none) := by
  have hv : ¬ f.availableSlots > f.totalSlots := not_lt.mpr hval
  constructor
  · intro st hedit hst
    have hst' : s.stations.find? (fun t => t.id == f.stationId) = some st := hst
    have hid : (st.id == f.stationId) = true := by simpa using List.find?_some hst'
    refine ⟨{ s with stations := updStations s.stations f.stationId (applyForm f) },
      by simp [adminSubmit, hv, hedit, hst], ?_,
      rfl, rfl, rfl, rfl, rfl, rfl, rfl, rfl, rfl, rfl, rfl, rfl, rfl, rfl, ?_⟩
    · show List.find? (fun t => t.id == f.stationId)
        (updStations s.stations f.stationId (applyForm f)) = _
      rw [find?_updStations s.stations f.stationId f.stationId (applyForm f)
        (fun t => rfl), hst']
      simp [eq_of_beq hid]
    · intro t ht hne
      have hb : ¬ (t.id == f.stationId) = true := by simpa using hne
      show t ∈ updStations s.stations f.stationId (applyForm f)
      exact List.mem_map.mpr ⟨t, ht, by simp [hb]⟩
  · intro hcreate
    exact ⟨{ s with stations := s.stations ++ [newStation f newId] },
      by simp [adminSubmit, hv, hcreate], rfl, rfl, rfl⟩

/-- Witness for **C8**: editing the demo station keeps its queue and
peak price untouched. -/
theorem adminSubmit_frame_witness :
    ∃ s', adminSubmit demoState
        ⟨"s1", "Edited", "Pune", 1, 2, "9", 4, 3, 12, "Operational", "img", [], []⟩ "ignored"
      = .ok s' ∧
      findStation s' "s1" = some
        (applyForm ⟨"s1", "Edited", "Pune", 1, 2, "9", 4, 3, 12, "Operational", "img", [], []⟩
          stDemo) := by
  obtain ⟨s', h1, h2, -⟩ :=
    (adminSubmit_frame demoState
      ⟨"s1", "Edited", "Pune", 1, 2, "9", 4, 3, 12, "Operational", "img", [], []⟩
      "ignored" (by decide)).1 stDemo (by decide) (by decide)
  exact ⟨s', h1, h2⟩

/-! ## C1 — the slot invariant -/

/-- `decSlot` only rewrites the available count. -/
theorem decSlot_id (t : Station) : (decSlot t).id = t.id := rfl

/-- `decSlot` decrements the available count by one. -/
theorem decSlot_avail (t : Station) :
    (decSlot t).slots.available = t.slots.available - 1 := rfl

/-- `decSlot` keeps the total. -/
theorem decSlot_total (t : Station) :
    (decSlot t).slots.total = t.slots.total := rfl

/-- `incSlot` only rewrites the available count. -/
theorem incSlot_id (t : Station) : (incSlot t).id = t.id := rfl

/-- `incSlot` increments the available count by one. -/
theorem incSlot_avail (t : Station) :
    (incSlot t).slots.available = t.slots.available + 1 := rfl

/-- `incSlot` keeps the total. -/
theorem incSlot_total (t : Station) :
    (incSlot t).slots.total = t.slots.total := rfl

/-- Every element of an updated station list is either the update of an
old element whose id matched, or an untouched old element. -/
theorem elem_updStations (l : List Station) (stationId : String)
    (f : Station → Station) (t' : Station) (h : t' ∈ updStations l stationId f) :
    ∃ t ∈ l, ((t.id == stationId) = true ∧ t' = f t)
      ∨ (¬ (t.id == stationId) = true ∧ t' = t) := by
  obtain ⟨t, ht, heq⟩ := List.mem_map.mp h
  by_cases hid : (t.id == stationId) = true
  · exact ⟨t, ht, Or.inl ⟨hid, by rw [← heq]; simp [hid]⟩⟩
  · exact ⟨t, ht, Or.inr ⟨hid, by rw [← heq]; simp [hid]⟩⟩

/-- `startCharging`'s mutation preserves the accounting invariant. -/
theorem slotInvL_start (stations : List Station) (sessions : List Session)
    (stationId sessionId uid : String) (now : Int) (st : Station)
    (hinv : SlotInvL stations sessions)
    (hstnd : (stations.map (fun x : Station => x.id)).Nodup)
    (hfs : stations.find? (fun x => x.id == stationId) = some st)
    (hav : ¬ st.slots.available ≤ 0) :
    SlotInvL (updStations stations stationId decSlot)
      (sessions ++ [⟨sessionId, uid, stationId, now⟩]) := by
  intro t' ht'
  obtain ⟨t, ht, hcase⟩ := elem_updStations stations stationId decSlot t' ht'
  have hcount : (((sessions ++ [(⟨sessionId, uid, stationId, now⟩ : Session)]).filter
      (fun ss => ss.stationId == t'.id)).length : Int)
      = ((sessions.filter (fun ss => ss.stationId == t'.id)).length : Int)
        + (if (stationId == t'.id) = true then 1 else 0) := by
    rw [sessionsIn_append]
  rcases hcase with ⟨hid, rfl⟩ | ⟨hid, rfl⟩
  · have hteq : t = st :=
      eq_find?_of_nodup_keys (fun x : Station => x.id) stations stationId st t
        hstnd hfs ht hid
    subst hteq
    simp only [decSlot_id] at hcount ⊢
    have hkey : (stationId == t.id) = true := by
      simp [(eq_of_beq hid).symm]
    have hi := hinv t ht
    refine ⟨?_, ?_⟩
    · simp only [decSlot_avail]
      omega
    · simp only [decSlot_avail, decSlot_total]
      rw [hcount, if_pos hkey]
      omega
  · have hkey : ¬ (stationId == t'.id) = true := by
      intro hb
      exact hid (by simp [(eq_of_beq hb).symm])
    have hi := hinv t' ht
    refine ⟨hi.1, ?_⟩
    rw [hcount, if_neg hkey]
    omega

/-- `stopCharging`'s mutation preserves the accounting invariant. -/
theorem slotInvL_stop (stations : List Station) (sessions : List Session)
    (sessionId : String) (sess : Session) (st : Station)
    (hinv : SlotInvL stations sessions)
    (hstnd : (stations.map (fun x : Station => x.id)).Nodup)
    (hsend : (sessions.map (fun ss => ss.id)).Nodup)
    (hfse : sessions.find? (fun ss => ss.id == sessionId) = some sess)
    (hfst : stations.find? (fun x => x.id == sess.stationId) = some st) :
    SlotInvL (updStations stations sess.stationId incSlot)
      (sessions.filter (fun ss => ¬ ss.id == sessionId)) := by
  intro t' ht'
  obtain ⟨t, ht, hcase⟩ := elem_updStations stations sess.stationId incSlot t' ht'
  have hcount : (((sessions.filter (fun ss => ¬ ss.id == sessionId)).filter
      (fun ss => ss.stationId == t'.id)).length : Int)
      = ((sessions.filter (fun ss => ss.stationId == t'.id)).length : Int)
        - (if (sess.stationId == t'.id) = true then 1 else 0) :=
    sessionsIn_filterOut sessions sessionId t'.id sess hsend hfse
  rcases hcase with ⟨hid, rfl⟩ | ⟨hid, rfl⟩
  · have hteq : t = st :=
      eq_find?_of_nodup_keys (fun x : Station => x.id) stations sess.stationId st t
        hstnd hfst ht hid
    subst hteq
    simp only [incSlot_id] at hcount ⊢
    have hkey : (sess.stationId == t.id) = true := by
      simp [(eq_of_beq hid).symm]
    have hi := hinv t ht
    refine ⟨?_, ?_⟩
    · simp only [incSlot_avail]
      omega
    · simp only [incSlot_avail, incSlot_total]
      rw [hcount, if_pos hkey]
      omega
  · have hkey : ¬ (sess.stationId == t'.id) = true := by
      intro hb
      exact hid (by simp [(eq_of_beq hb).symm])
    have hi := hinv t' ht
    refine ⟨hi.1, ?_⟩
    rw [hcount, if_neg hkey]
    omega

/-- Counterexample for **C1** as stated: the admin create form accepts
`total = 5`, `available = -1` (its only check rejects
`available > total`, which `-1` passes) and writes a station whose
available count is negative, so the form does *not* preserve
`0 ≤ available` and a reachable station state violates the invariant. -/
theorem adminSubmit_negative_available :
    adminSubmit ⟨[], [], [], []⟩ negForm "s9"
      = .ok ⟨[newStation negForm "s9"], [], [], []⟩ ∧
    (newStation negForm "s9").slots.total = 5 ∧
    (newStation negForm "s9").slots.available = -1 ∧
    ¬ (0 ≤ (newStation negForm "s9").slots.available) := by
  exact ⟨rfl, rfl, rfl, by decide⟩

/-- **C1 (amended).** The charging transactions preserve the slot
invariant: on any state satisfying the accounting invariant `SlotInv`
(`0 ≤ available` and `available + live sessions ≤ total` per station;
document ids pairwise distinct, as the store guarantees), every station
satisfies `0 ≤ available ≤ total`, and both a successful
`startCharging` and a successful `stopCharging` re-establish `SlotInv`.
The admin create/edit form, however, enforces only `available ≤ total`
and accepts a negative available count (see the counterexample), so the
claim's "every operation that writes slots.available preserves the
invariant" fails for the form. -/
theorem slotInvariant_charging (s : AppState) (hinv : SlotInv s)
    (hstnd : (s.stations.map (fun x : Station => x.id)).Nodup)
    (hsend : (s.activeSessions.map (fun ss => ss.id)).Nodup) :
    (∀ st ∈ s.stations, 0 ≤ st.slots.available ∧
      st.slots.available ≤ st.slots.total) ∧
    (∀ uid stationId sessionId now s',
      startCharging s uid stationId sessionId now = .ok s' → SlotInv s') ∧
    (∀ uid sessionId bookingId now s',
      stopCharging s uid sessionId bookingId now = .ok s' → SlotInv s') := by
  refine ⟨?_, ?_, ?_⟩
  · intro st hst
    have h := hinv st hst
    omega
  · intro uid stationId sessionId now s' h
    cases hfs : findStation s stationId with
    | none => simp [startCharging, hfs] at h
    | some st =>
      by_cases hav : st.slots.available ≤ 0
      · simp [startCharging, hfs, hav] at h
      · simp only [startCharging, hfs] at h
        rw [if_neg hav] at h
        have h' := Except.ok.inj h
        subst h'
        show SlotInvL (updStations s.stations stationId decSlot)
          (s.activeSessions ++ [⟨sessionId, uid, stationId, now⟩])
        exact slotInvL_start s.stations s.activeSessions stationId sessionId uid
          now st hinv hstnd hfs hav
  · intro uid sessionId bookingId now s' h
    cases hfse : findSession s sessionId with
    | none => simp [stopCharging, hfse] at h
    | some sess =>
      cases hfst : findStation s sess.stationId with
      | none => simp [stopCharging, hfse, hfst] at h
      | some st =>
        cases hfu : findUser s uid with
        | none => simp [stopCharging, hfse, hfst, hfu] at h
        | some u =>
          simp only [stopCharging, hfse, hfst, hfu] at h
          have h' := Except.ok.inj h
          subst h'
          show SlotInvL (updStations s.stations sess.stationId incSlot)
            (s.activeSessions.filter (fun ss => ¬ ss.id == sessionId))
          exact slotInvL_stop s.stations s.activeSessions sessionId sess st
            hinv hstnd hsend hfse hfst

/-- Witness for **C1 (amended)**: the demo state satisfies the
accounting invariant and therefore the slot bounds. -/
theorem slotInvariant_charging_witness :
    0 ≤ stDemo.slots.available ∧ stDemo.slots.available ≤ stDemo.slots.total :=
  (slotInvariant_charging demoState
    (by
      intro st hst
      have h : st = stDemo := by simpa [demoState] using hst
      subst h
      exact ⟨by decide, by decide⟩)
    (by decide) (by decide)).1 stDemo (by decide)

/-! ## C6 — N serialized StartSession calls against k slots -/

/-- Every entry of the countdown from `k` is below `k`. -/
theorem descFrom_mem_lt : ∀ (k : Int) (n : Nat) (m : Int),
    m ∈ descFrom k n → m < k
  | k, 0, m, h => by cases h
  | k, n + 1, m, h => by
    rcases List.mem_cons.mp h with rfl | h2
    · omega
    · have := descFrom_mem_lt (k - 1) n m h2
      omega

/-- The countdown has no repeated entry. -/
theorem descFrom_nodup : ∀ (k : Int) (n : Nat), (descFrom k n).Nodup
  | _, 0 => List.nodup_nil
  | k, n + 1 => by
    refine List.nodup_cons.mpr ⟨?_, descFrom_nodup (k - 1) n⟩
    intro hmem
    have := descFrom_mem_lt (k - 1) n (k - 1) hmem
    omega

/-- The countdown from `k` over `n` steps has length `n`. -/
theorem descFrom_length : ∀ (k : Int) (n : Nat), (descFrom k n).length = n
  | _, 0 => rfl
  | k, n + 1 => by
    show (descFrom (k - 1) n).length + 1 = n + 1
    rw [descFrom_length (k - 1) n]

/-- A successful `startCharging` returns the decremented station on a
reread. -/
theorem startCharging_ok_find (s : AppState) (uid stationId sessionId : String)
    (now : Int) (st : Station) (hfs : findStation s stationId = some st)
    (hav : ¬ st.slots.available ≤ 0) :
    ∃ s1, startCharging s uid stationId sessionId now = .ok s1 ∧
      findStation s1 stationId = some (decSlot st) := by
  have hst' : s.stations.find? (fun t => t.id == stationId) = some st := hfs
  have hid : (st.id == stationId) = true := by simpa using List.find?_some hst'
  refine ⟨{ s with
      stations := updStations s.stations stationId decSlot
      activeSessions := s.activeSessions ++ [⟨sessionId, uid, stationId, now⟩] },
    by simp [startCharging, hfs, hav], ?_⟩
  show List.find? (fun t => t.id == stationId)
    (updStations s.stations stationId decSlot) = _
  rw [find?_updStations s.stations stationId stationId decSlot (fun t => rfl), hst']
  simp [eq_of_beq hid]

/-- Failures do not consume calls' observations: `none` plus the tally
of `some` entries accounts for every call. -/
theorem countP_none_add_filterMap (l : List (Option Int)) :
    l.countP (fun o => o.isNone) + (l.filterMap id).length = l.length := by
  induction l with
  | nil => rfl
  | cons o l ih =>
    rw [List.countP_cons]
    cases o with
    | none =>
      have hf : List.filterMap id ((none : Option Int) :: l) = List.filterMap id l := rfl
      have hcond : ((fun o : Option Int => o.isNone) none = true) := rfl
      rw [hf, List.length_cons, if_pos hcond]
      omega
    | some a =>
      have hf : List.filterMap id (some a :: l) = a :: List.filterMap id l := rfl
      have hcond : ¬ ((fun o : Option Int => o.isNone) (some a) = true) := by simp
      rw [hf, List.length_cons, List.length_cons, if_neg hcond]
      omega

/-- Running serialized `startCharging` calls against a station with
`k ≤ N` available slots answers every call and the successful ones
observe exactly the countdown `k-1, …, 0`. -/
theorem runStartCalls_spec :
    ∀ (calls : List (String × String)) (s : AppState) (st : Station)
      (stationId : String) (now : Int),
      findStation s stationId = some st →
      0 ≤ st.slots.available →
      st.slots.available ≤ (calls.length : Int) →
      (runStartCalls stationId now s calls).2.length = calls.length ∧
      (runStartCalls stationId now s calls).2.filterMap id
        = descFrom st.slots.available st.slots.available.toNat
  | [], s, st, stationId, now, hfs, h0, hN => by
    have h00 : st.slots.available = 0 := by
      simp only [List.length_nil, Nat.cast_zero] at hN
      omega
    refine ⟨rfl, ?_⟩
    rw [h00]
    rfl
  | c :: rest, s, st, stationId, now, hfs, h0, hN => by
    have hN' : st.slots.available ≤ (rest.length : Int) + 1 := by
      rw [List.length_cons, Nat.cast_add, Nat.cast_one] at hN
      exact hN
    by_cases hav : st.slots.available ≤ 0
    · have h00 : st.slots.available = 0 := le_antisymm hav h0
      have herr : startCharging s c.1 stationId c.2 now
          = .error "No available slots!" := by
        simp [startCharging, hfs, hav]
      have ih := runStartCalls_spec rest s st stationId now hfs h0 (by omega)
      simp only [runStartCalls, herr]
      refine ⟨by simp [ih.1], ?_⟩
      simp only [List.filterMap_cons]
      exact ih.2
    · obtain ⟨s1, hrun, hfind⟩ :=
        startCharging_ok_find s c.1 stationId c.2 now st hfs hav
      have ih := runStartCalls_spec rest s1 (decSlot st) stationId now hfind
        (by simp only [decSlot_avail]; omega)
        (by simp only [decSlot_avail]; omega)
      simp only [runStartCalls, hrun]
      refine ⟨by simp [ih.1], ?_⟩
      rw [hfind]
      simp only [Option.map_some, List.filterMap_cons, id_eq]
      rw [ih.2]
      simp only [decSlot_avail]
      have hk : st.slots.available.toNat = (st.slots.available - 1).toNat + 1 := by
        omega
      rw [hk]
      rfl

/-- **C6.** For `N` concurrent `startCharging` calls against a station
with `available = k < N`, in whatever order the store serializes their
transactions, every call is answered, exactly `k` succeed, `N − k` fail
with no-slots, and no two successful calls observe the same
post-decrement slot count (they observe exactly `k-1, k-2, …, 0`):
two users racing for the last slot are serialized so that exactly one
`startCharging` succeeds. -/
theorem startCharging_serialized (s : AppState) (stationId : String) (now : Int)
    (st : Station) (k : Int) (calls : List (String × String))
    (hfs : findStation s stationId = some st)
    (hk : st.slots.available = k)
    (h0 : 0 ≤ k) (hN : k < (calls.length : Int)) :
    (runStartCalls stationId now s calls).2.length = calls.length ∧
    (runStartCalls stationId now s calls).2.filterMap id = descFrom k k.toNat ∧
    ((runStartCalls stationId now s calls).2.filterMap id).length = k.toNat ∧
    (runStartCalls stationId now s calls).2.countP (fun o => o.isNone)
      = calls.length - k.toNat ∧
    ((runStartCalls stationId now s calls).2.filterMap id).Nodup := by
  subst hk
  have h := runStartCalls_spec calls s st stationId now hfs h0 (le_of_lt hN)
  have hlen : ((runStartCalls stationId now s calls).2.filterMap id).length
      = st.slots.available.toNat := by
    rw [h.2, descFrom_length]
  have hsum := countP_none_add_filterMap ((runStartCalls stationId now s calls).2)
  refine ⟨h.1, h.2, hlen, ?_, by rw [h.2]; exact descFrom_nodup _ _⟩
  rw [hlen, h.1] at hsum
  omega

/-- Witness for **C6**: three calls race for the demo station's two
slots; both successes observe distinct counts `1` and `0`, and one call
fails. -/
theorem startCharging_serialized_witness :
    ((runStartCalls "s1" 0 demoState
      [("u1", "n1"), ("u2", "n2"), ("u3", "n3")]).2.filterMap id).length
      = (2 : Int).toNat := by
  exact (startCharging_serialized demoState "s1" 0 stDemo 2
    [("u1", "n1"), ("u2", "n2"), ("u3", "n3")]
    (by decide) rfl (by decide) (by decide)).2.2.1
